import Mathlib

/-!
Verification development for the bill-of-materials template-resolution and
graph-materialization engine of the `bom_analysis` repository.

The repository material at hand consists of its documentation, its example
notebooks, and a skeleton artifact (`example_skeleton` JSON) produced by the
system; the Python modules themselves are not available.  The engine
(merge, inheritance resolution, skeleton building, identity registry,
export/materialize) is therefore modelled from the specification, while the
skeleton artifact is embedded verbatim as concrete data and used as the
authority for the shape invariants of produced skeletons.
-/

namespace BomAnalysis

/-- Serialisable JSON-like values exchanged in skeletons and part templates.
Decimal numbers are represented exactly as a mantissa together with the
number of digits after the decimal point (`num m d` stands for `m / 10^d`),
so that equality of embedded data is decidable by computation. -/
inductive Value where
  | null : Value
  | str : String → Value
  | num : Int → Nat → Value
  | seq : List Value → Value
  | map : List (String × Value) → Value
deriving Repr

mutual
/-- Decidable equality on values, written by hand because the automatic
derivation does not support this nested inductive type. -/
def decEqV : (a b : Value) → Decidable (a = b)
  | .null, .null => isTrue rfl
  | .str a, .str b =>
    if h : a = b then isTrue (by rw [h]) else isFalse (fun hh => h (by cases hh; rfl))
  | .num a d, .num b e =>
    if h1 : a = b then
      if h2 : d = e then isTrue (by rw [h1, h2])
      else isFalse (fun hh => h2 (by cases hh; rfl))
    else isFalse (fun hh => h1 (by cases hh; rfl))
  | .seq a, .seq b =>
    match decEqLV a b with
    | isTrue h => isTrue (by rw [h])
    | isFalse h => isFalse (fun hh => h (by cases hh; rfl))
  | .map a, .map b =>
    match decEqFV a b with
    | isTrue h => isTrue (by rw [h])
    | isFalse h => isFalse (fun hh => h (by cases hh; rfl))
  | .null, .str _ | .null, .num _ _ | .null, .seq _ | .null, .map _ => isFalse (fun h => by cases h)
  | .str _, .null | .str _, .num _ _ | .str _, .seq _ | .str _, .map _ => isFalse (fun h => by cases h)
  | .num _ _, .null | .num _ _, .str _ | .num _ _, .seq _ | .num _ _, .map _ => isFalse (fun h => by cases h)
  | .seq _, .null | .seq _, .str _ | .seq _, .num _ _ | .seq _, .map _ => isFalse (fun h => by cases h)
  | .map _, .null | .map _, .str _ | .map _, .num _ _ | .map _, .seq _ => isFalse (fun h => by cases h)
termination_by structural a => a

/-- Decidable equality on lists of values. -/
def decEqLV : (a b : List Value) → Decidable (a = b)
  | [], [] => isTrue rfl
  | [], _ :: _ => isFalse (fun h => by cases h)
  | _ :: _, [] => isFalse (fun h => by cases h)
  | x :: xs, y :: ys =>
    match decEqV x y with
    | isFalse h => isFalse (fun hh => h (by cases hh; rfl))
    | isTrue h1 =>
      match decEqLV xs ys with
      | isTrue h2 => isTrue (by rw [h1, h2])
      | isFalse h => isFalse (fun hh => h (by cases hh; rfl))
termination_by structural a => a

/-- Decidable equality on field lists (string-keyed records). -/
def decEqFV : (a b : List (String × Value)) → Decidable (a = b)
  | [], [] => isTrue rfl
  | [], _ :: _ => isFalse (fun h => by cases h)
  | _ :: _, [] => isFalse (fun h => by cases h)
  | (k, v) :: xs, (k', v') :: ys =>
    if hk : k = k' then
      match decEqV v v' with
      | isFalse h => isFalse (fun hh => h (by cases hh; rfl))
      | isTrue h1 =>
        match decEqFV xs ys with
        | isTrue h2 => isTrue (by rw [hk, h1, h2])
        | isFalse h => isFalse (fun hh => h (by cases hh; rfl))
    else isFalse (fun hh => hk (by cases hh; rfl))
termination_by structural a => a
end

instance : DecidableEq Value := decEqV

/-- A record: an ordered association list from field names to values, the
shallow embedding of a Python `dict`. -/
abbrev Fields := List (String × Value)

/-- First-match association-list lookup, the embedding of `dict.__getitem__`. -/
def assocLookup {α : Type _} (k : String) : List (String × α) → Option α
  | [] => none
  | (k', v) :: rest => if k' = k then some v else assocLookup k rest

/-- Replace the value at a key, or append the binding if the key is absent
(`dict.__setitem__` on the embedding). -/
def setField (k : String) (v : Value) : Fields → Fields
  | [] => [(k, v)]
  | (k', v') :: rest => if k' = k then (k, v) :: rest else (k', v') :: setField k v rest

/-- Drop every binding of a key from a record (`dict.pop`). -/
def removeKey (k : String) (fields : Fields) : Fields :=
  fields.filter (fun p => p.1 ≠ k)

/-- Sequence merge: keep the target sequence, then append each source item
that is not already present, deduplicating by value equality. -/
def appendUnique (t s : List Value) : List Value :=
  s.foldl (fun acc v => if v ∈ acc then acc else acc ++ [v]) t

/-- Modelled from the spec: the Merge Engine rule set (`UpdateDict` in
`bom_analysis.utils`, absent from the available sources).  Mappings merge
recursively field-wise (fields of the target are merged in place in their
original order, fields that occur only in the source are appended in source
order), sequences concatenate with duplicate removal by value equality, and
in every other combination the later source replaces the earlier value.
The fuel argument bounds the recursion depth. -/
def mergeValueF : Nat → Value → Value → Value
  | fuel + 1, Value.map t, Value.map s =>
    Value.map
      ((t.map (fun p =>
        match assocLookup p.1 s with
        | some v => (p.1, mergeValueF fuel p.2 v)
        | none => p))
      ++ s.filter (fun q => (assocLookup q.1 t).isNone))
  | _, Value.seq t, Value.seq s => Value.seq (appendUnique t s)
  | _, _, s => s

/-- Field-wise merge of two records, the record case of the Merge Engine. -/
def mergeFieldsF (fuel : Nat) (t s : Fields) : Fields :=
  (t.map (fun p =>
    match assocLookup p.1 s with
    | some v => (p.1, mergeValueF fuel p.2 v)
    | none => p))
  ++ s.filter (fun q => (assocLookup q.1 t).isNone)

/-- A value is a scalar when it is neither a mapping nor a sequence; on
scalars the Merge Engine always lets the later source win. -/
def Value.isScalar : Value → Bool
  | .seq _ => false
  | .map _ => false
  | _ => true

/-- A mutable heap of record values, addressed by natural numbers; the
shallow embedding of Python object identity for dictionaries. -/
abbrev Heap := List (Nat × Value)

/-- Heap lookup by address. -/
def heapGet (a : Nat) : Heap → Option Value
  | [] => none
  | (a', v) :: rest => if a' = a then some v else heapGet a rest

/-- Overwrite the value stored at an address, leaving every other address
untouched. -/
def heapSet (a : Nat) (v : Value) : Heap → Heap
  | [] => []
  | (a', v') :: rest => if a' = a then (a, v) :: rest else (a', v') :: heapSet a v rest

/-- Modelled from the spec: the Merge Engine entry point
`UpdateDict(target, *sources)` (in `bom_analysis.utils`, absent from the
available sources) mutates its first argument, folding the sources into the
record stored at the target's address from left to right, later sources
winning conflicts. -/
def updateDictH (fuel : Nat) (heap : Heap) (target : Nat) (sources : List Value) : Heap :=
  match heapGet target heap with
  | some tv => heapSet target (sources.foldl (mergeValueF fuel) tv) heap
  | none => heap

/-- Outcome of registering an identifier with the Identity Registry. -/
inductive RegisterResult where
  | ok : List (String × Nat) → RegisterResult
  | duplicateReference : String → RegisterResult
deriving Repr, DecidableEq

/-- Modelled from the spec: `register` of the Identity Registry (the master
reference register of `bom_analysis.bom.EngineeringObject`, absent from the
available sources).  Live objects are identified by numeric object
identities.  A new identifier is inserted; an identifier already mapping to
the very same object is accepted silently; an identifier mapping to a
distinct object is rejected with `DuplicateReference`. -/
def register (reg : List (String × Nat)) (ident : String) (node : Nat) : RegisterResult :=
  match assocLookup ident reg with
  | none => RegisterResult.ok ((ident, node) :: reg)
  | some n => if n = node then RegisterResult.ok reg else RegisterResult.duplicateReference ident

/-- The mutable state of one hierarchy: its identity registry together with
the parent-to-child attachment edges of the tree. -/
structure TreeState where
  registry : List (String × Nat)
  edges : List (String × String)
deriving Repr, DecidableEq

/-- Modelled from the spec: attaching a child (`add_component`) consults the
Identity Registry at the moment of attachment; on success the edge is added
and the registry updated, on a duplicate reference the attach aborts and
both the registry and the tree are left exactly as they were. -/
def attachChild (st : TreeState) (parentRef ident : String) (node : Nat) :
    TreeState × Option String :=
  match register st.registry ident node with
  | RegisterResult.ok reg' => (⟨reg', st.edges ++ [(parentRef, ident)]⟩, none)
  | RegisterResult.duplicateReference i => (st, some i)

/-- Errors surfaced by inheritance resolution and skeleton building. -/
inductive ResolveErr where
  | unknownTemplate : String → ResolveErr
  | inheritanceCycle : List String → ResolveErr
  | fuelExhausted : ResolveErr
deriving Repr, DecidableEq

/-- The Template Store: a mapping from template type name to its declared
fields. -/
abbrev Store := List (String × Fields)

/-- The strings contained in a sequence value. -/
def strListOf : Value → List String
  | Value.seq xs => xs.filterMap (fun v => match v with | Value.str s => some s | _ => none)
  | _ => []

/-- The ancestor type names a template declares under its `inherits` key. -/
def getInherits (fields : Fields) : List String :=
  match assocLookup "inherits" fields with
  | some v => strListOf v
  | none => []

/-- Decidable equality for fallible results, used to evaluate concrete
builds. -/
def decEqExcept {ε α : Type _} [DecidableEq ε] [DecidableEq α] :
    (a b : Except ε α) → Decidable (a = b)
  | Except.ok a, Except.ok b =>
    if h : a = b then isTrue (by rw [h]) else isFalse (fun hh => h (by cases hh; rfl))
  | Except.error a, Except.error b =>
    if h : a = b then isTrue (by rw [h]) else isFalse (fun hh => h (by cases hh; rfl))
  | Except.ok _, Except.error _ => isFalse (fun h => by cases h)
  | Except.error _, Except.ok _ => isFalse (fun h => by cases h)

instance {ε α : Type _} [DecidableEq ε] [DecidableEq α] : DecidableEq (Except ε α) :=
  decEqExcept

/-- Map a fallible function over a list, stopping at the first error. -/
def exceptMapM {ε α β : Type _} (f : α → Except ε β) : List α → Except ε (List β)
  | [] => Except.ok []
  | x :: xs =>
    match f x with
    | Except.error e => Except.error e
    | Except.ok y =>
      match exceptMapM f xs with
      | Except.error e => Except.error e
      | Except.ok ys => Except.ok (y :: ys)

/-- Modelled from the spec: the Inheritance Resolver (`inherits` expansion of
`bom_analysis.parsers`, absent from the available sources).  Each ancestor
named in `inherits` is itself fully resolved (depth-first, declaration order)
and merged into an accumulator; the template's own fields are merged last so
they take precedence; the `inherits` key is replaced by an `inherited`
provenance list.  A name missing from the store fails with
`UnknownTemplate`; revisiting a name already on the current resolution path
fails with `InheritanceCycle` carrying the offending chain.  The store is
read-only throughout. -/
def resolveT (store : Store) : Nat → List String → String → Except ResolveErr Fields
  | 0, _, _ => Except.error ResolveErr.fuelExhausted
  | fuel + 1, visited, name =>
    if name ∈ visited then Except.error (ResolveErr.inheritanceCycle (visited ++ [name]))
    else
      match assocLookup name store with
      | none => Except.error (ResolveErr.unknownTemplate name)
      | some tmpl =>
        match exceptMapM (fun a => resolveT store fuel (visited ++ [name]) a) (getInherits tmpl) with
        | Except.error e => Except.error e
        | Except.ok ress =>
          Except.ok (setField "inherited" (Value.seq ((getInherits tmpl).map Value.str))
            (mergeFieldsF (fuel + 1)
              (ress.foldl (fun acc r => mergeFieldsF (fuel + 1) acc r) [])
              (removeKey "inherits" tmpl)))

/-- The template type name of a child declaration `{type: <name>}`. -/
def childTypeOf : Value → Option String
  | Value.map m =>
    match assocLookup "type" m with
    | some (Value.str ty) => some ty
    | _ => none
  | _ => none

/-- The `(local key, child type)` pairs a resolved template declares under
its `children` key. -/
def childDecls (fields : Fields) : List (String × String) :=
  match assocLookup "children" fields with
  | some (Value.map cs) => cs.filterMap (fun p => (childTypeOf p.2).map (fun ty => (p.1, ty)))
  | _ => []

/-- Modelled from the spec and the skeleton artifact: the node record stored
in the Skeleton for one node — the resolved template with `type` and `_ref`
bookkeeping fields set, and, when the node declares children, a
`_part_count` summary holding the `_counter` marker and one count per child
key. -/
def nodeRecord (ref ty : String) (resolved : Fields) : Fields :=
  let base := setField "type" (Value.str ty) (setField "_ref" (Value.str ref) resolved)
  match assocLookup "children" resolved with
  | some (Value.map cs) =>
    setField "_part_count"
      (Value.map (("_counter", Value.str "True") :: cs.map (fun p => (p.1, Value.num 1 0))))
      base
  | _ => base

/-- Modelled from the spec: the Skeleton Builder (`SkeletonParser.spine` of
`bom_analysis.parsers`, absent from the available sources).  Starting at the
top node it resolves the template, stores the node record keyed by the
node's identifier, and recurses into each declared child, the child's
identifier being its local key.  The fuel argument bounds the tree depth. -/
def buildNode (store : Store) : Nat → String → String → Except ResolveErr (List (String × Fields))
  | 0, _, _ => Except.error ResolveErr.fuelExhausted
  | fuel + 1, ref, ty =>
    match resolveT store (store.length + 1) [] ty with
    | Except.error e => Except.error e
    | Except.ok resolved =>
      match exceptMapM (fun p => buildNode store fuel p.1 p.2) (childDecls resolved) with
      | Except.error e => Except.error e
      | Except.ok rest => Except.ok ((ref, nodeRecord ref ty resolved) :: rest.flatten)

/-- A live node of a materialized tree: its identifier, its template type
name, its resolved implementation type paths, its inheritance provenance,
and its attached children.  A child is attached under its own identifier,
which is how this system names child attachment points. -/
inductive LiveNode where
  | mk : String → String → List String → List String → List LiveNode → LiveNode
deriving Repr

/-- The identifier of a live node. -/
def LiveNode.ref : LiveNode → String
  | .mk r _ _ _ _ => r

/-- The template type name of a live node. -/
def LiveNode.typeName : LiveNode → String
  | .mk _ ty _ _ _ => ty

/-- The resolved implementation type paths of a live node. -/
def LiveNode.classStr : LiveNode → List String
  | .mk _ _ cs _ _ => cs

/-- The inheritance provenance of a live node. -/
def LiveNode.inherited : LiveNode → List String
  | .mk _ _ _ inh _ => inh

/-- The children attached to a live node. -/
def LiveNode.children : LiveNode → List LiveNode
  | .mk _ _ _ _ cs => cs

mutual
/-- Decidable equality on live nodes, written by hand because the automatic
derivation does not support this nested inductive type. -/
def decEqLN : (a b : LiveNode) → Decidable (a = b)
  | .mk r ty cs inh ch, .mk r' ty' cs' inh' ch' =>
    if h1 : r = r' then
      if h2 : ty = ty' then
        if h3 : cs = cs' then
          if h4 : inh = inh' then
            match decEqLLN ch ch' with
            | isTrue h5 => isTrue (by rw [h1, h2, h3, h4, h5])
            | isFalse h => isFalse (fun hh => h (by cases hh; rfl))
          else isFalse (fun hh => h4 (by cases hh; rfl))
        else isFalse (fun hh => h3 (by cases hh; rfl))
      else isFalse (fun hh => h2 (by cases hh; rfl))
    else isFalse (fun hh => h1 (by cases hh; rfl))
termination_by structural a => a

/-- Decidable equality on lists of live nodes. -/
def decEqLLN : (a b : List LiveNode) → Decidable (a = b)
  | [], [] => isTrue rfl
  | [], _ :: _ => isFalse (fun h => by cases h)
  | _ :: _, [] => isFalse (fun h => by cases h)
  | x :: xs, y :: ys =>
    match decEqLN x y with
    | isFalse h => isFalse (fun hh => h (by cases hh; rfl))
    | isTrue h1 =>
      match decEqLLN xs ys with
      | isTrue h2 => isTrue (by rw [h1, h2])
      | isFalse h => isFalse (fun hh => h (by cases hh; rfl))
termination_by structural a => a
end

instance : DecidableEq LiveNode := decEqLN

mutual
/-- The height of a live node: one more than the greatest height among its
children. -/
def heightL : LiveNode → Nat
  | .mk _ _ _ _ children => 1 + heightList children
termination_by structural n => n

/-- The greatest height among a list of live nodes. -/
def heightList : List LiveNode → Nat
  | [] => 0
  | c :: cs => max (heightL c) (heightList cs)
termination_by structural l => l
end

mutual
/-- Every node of a live tree, the node itself included. -/
def subtreesL : LiveNode → List LiveNode
  | .mk r ty cs inh children => LiveNode.mk r ty cs inh children :: subtreesList children
termination_by structural n => n

/-- Every node of a list of live trees. -/
def subtreesList : List LiveNode → List LiveNode
  | [] => []
  | c :: cs => subtreesL c ++ subtreesList cs
termination_by structural l => l
end

/-- The entry a parent's `children` record holds for one attached child:
the child's identifier mapped to its declared type. -/
def childEntry (c : LiveNode) : String × Value :=
  (c.ref, Value.map [("type", Value.str c.typeName)])

/-- Modelled from the spec: the Node Record the Exporter (`to_dict` of
`bom_analysis.bom`, absent from the available sources) writes for one live
node: its `type`, its `_ref` echoing its identifier, its resolved
`class_str` list, its `children` mapping each attachment point to the
child's type, its `inherited` provenance, and the `_part_count` summary. -/
def nodeRecordOf (n : LiveNode) : Fields :=
  [("type", Value.str n.typeName),
   ("_ref", Value.str n.ref),
   ("class_str", Value.seq (n.classStr.map Value.str)),
   ("children", Value.map (n.children.map childEntry)),
   ("inherited", Value.seq (n.inherited.map Value.str)),
   ("_part_count",
     Value.map (("_counter", Value.str "True") :: n.children.map (fun c => (c.ref, Value.num 1 0))))]

mutual
/-- Modelled from the spec: the Exporter (`to_dict`) walks the live tree and
produces the flat Skeleton, one node record keyed by each reachable node's
identifier. -/
def exportTree : LiveNode → List (String × Fields)
  | .mk r ty cs inh children =>
    (r, nodeRecordOf (LiveNode.mk r ty cs inh children)) :: exportList children
termination_by structural n => n

/-- Export of every tree in a list of live trees, concatenated. -/
def exportList : List LiveNode → List (String × Fields)
  | [] => []
  | c :: cs => exportTree c ++ exportList cs
termination_by structural l => l
end

/-- Decode a sequence value into its list of strings; fails when any item is
not a string. -/
def decodeStrs : List Value → Option (List String)
  | [] => some []
  | Value.str s :: rest => (decodeStrs rest).map (fun l => s :: l)
  | _ => none

/-- Decode an optional field into a list of strings. -/
def decodeStrSeq : Option Value → Option (List String)
  | some (Value.seq xs) => decodeStrs xs
  | _ => none

/-- The child identifiers a node record declares: the keys of its `children`
mapping. -/
def childKeys (r : Fields) : Option (List String) :=
  match assocLookup "children" r with
  | some (Value.map cs) => some (cs.map Prod.fst)
  | _ => none

/-- Map a partial function over a list, failing when any element fails. -/
def optMapM {α β : Type _} (f : α → Option β) : List α → Option (List β)
  | [] => some []
  | x :: xs =>
    match f x, optMapM f xs with
    | some y, some ys => some (y :: ys)
    | _, _ => none

/-- Modelled from the spec: the Graph Materializer (`from_dict` of
`bom_analysis.bom`, absent from the available sources) rebuilds the live
tree reachable from an identifier out of the flat Skeleton: it looks the
record up, decodes the bookkeeping fields, and recursively materializes each
child named in the `children` mapping.  The fuel argument bounds the tree
depth. -/
def materializeNode (skel : List (String × Fields)) : Nat → String → Option LiveNode
  | 0, _ => none
  | fuel + 1, ref =>
    match assocLookup ref skel with
    | none => none
    | some r =>
      match assocLookup "type" r, decodeStrSeq (assocLookup "class_str" r),
            decodeStrSeq (assocLookup "inherited" r), childKeys r with
      | some (Value.str ty), some cls, some inh, some keys =>
        match optMapM (fun k => materializeNode skel fuel k) keys with
        | some children => some (LiveNode.mk ref ty cls inh children)
        | none => none
      | _, _, _, _ => none

/-- Modelled from the example notebooks: a child attached under local key
`k` is reachable from its parent as the attribute named `k`; on the
embedding, attribute access returns the first child whose identifier is the
accessed name. -/
def getattrChild (n : LiveNode) (k : String) : Option LiveNode :=
  n.children.find? (fun c => c.ref == k)

/-- The `parts` dictionary of the skeleton-from-scratch example notebook. -/
def partsEx2 : Fields :=
  [("assembly", Value.map
     [("class_str", Value.seq [Value.str "bom_analysis.bom.Assembly"]),
      ("params_name", Value.seq [Value.str "assembly"])]),
   ("component", Value.map
     [("class_str", Value.seq [Value.str "bom_analysis.bom.Component"]),
      ("params_name", Value.seq [Value.str "component"])])]

/-- The `tokamak_parts` dictionary of the skeleton-from-scratch example
notebook; `breeding_pins` carries `test_list` with the single item
`"hello"`. -/
def tokamakPartsEx2 : Fields :=
  [("blanket", Value.map
     [("inherits", Value.seq [Value.str "assembly"]),
      ("children", Value.map
        [("breeding_zone", Value.map [("type", Value.str "breeding_pins")]),
         ("manifold", Value.map [("type", Value.str "double_wall_mf")])])]),
   ("breeding_pins", Value.map
     [("inherits", Value.seq [Value.str "component"]),
      ("test_list", Value.seq [Value.str "hello"]),
      ("params_name", Value.seq [Value.str "pins"])]),
   ("double_wall_mf", Value.map
     [("inherits", Value.seq [Value.str "component"]),
      ("material", Value.map [("name", Value.str "steel")])])]

/-- The `extra_info` dictionary of the skeleton-from-scratch example
notebook; it contributes `test_list` item `"world"` to `breeding_pins`. -/
def extraInfoEx2 : Fields :=
  [("double_wall_mf", Value.map
     [("description", Value.str "a manifold with a double wall")]),
   ("breeding_pins", Value.map
     [("test_list", Value.seq [Value.str "world"])])]

/-- The Template Store of the end-to-end scenario: an assembly and a
component base, a blanket with two children, and the two child component
types. -/
def storeScenario : Store :=
  [("assembly", [("class_str", Value.seq [Value.str "Assembly"])]),
   ("component", [("class_str", Value.seq [Value.str "Component"])]),
   ("blanket",
     [("inherits", Value.seq [Value.str "assembly"]),
      ("children", Value.map
        [("bz", Value.map [("type", Value.str "breeding_pins")]),
         ("fw", Value.map [("type", Value.str "double_wall_mf")])])]),
   ("breeding_pins", [("inherits", Value.seq [Value.str "component"])]),
   ("double_wall_mf", [("inherits", Value.seq [Value.str "component"])])]

/-- The skeleton the end-to-end scenario builds from `storeScenario`. -/
def builtScenario : List (String × Fields) :=
  (buildNode storeScenario 5 "my_blanket" "blanket").toOption.getD []

/-- Template `a` declares template `b` among its ancestors: `a` is present
in the store and `b` occurs in its `inherits` list. -/
def inheritsArrow (store : Store) (a b : String) : Bool :=
  match assocLookup a store with
  | some t => b ∈ getInherits t
  | none => false

/-- Every name any template of the store inherits from is itself present in
the store, the well-formedness under which resolution failures are cycle
failures rather than `UnknownTemplate` failures. -/
def storeClosed (store : Store) : Bool :=
  store.all (fun e => (getInherits e.2).all (fun b => (assocLookup b store).isSome))

/-- A Template Store with a direct two-template inheritance cycle. -/
def storeCycle : Store :=
  [("A", [("inherits", Value.seq [Value.str "B"])]),
   ("B", [("inherits", Value.seq [Value.str "A"])])]

/-- A Template Store with a transitive three-template inheritance cycle
`A → B → C → A`, where `B`'s inherits list also names an acyclic
template. -/
def storeCycle3 : Store :=
  [("A", [("inherits", Value.seq [Value.str "B"])]),
   ("B", [("inherits", Value.seq [Value.str "leaf", Value.str "C"])]),
   ("C", [("inherits", Value.seq [Value.str "A"])]),
   ("leaf", [("f", Value.str "leaf value")])]

/-- A Template Store exercising inheritance precedence: `X` inherits
`[A, B]` and all three declare the field `f`; the ancestor `A` has an
ancestor of its own. -/
def storePrecedence : Store :=
  [("base", [("f", Value.str "from base"), ("h", Value.str "base only")]),
   ("A", [("inherits", Value.seq [Value.str "base"]),
          ("f", Value.str "from A"), ("g", Value.str "only A")]),
   ("B", [("f", Value.str "from B")]),
   ("X", [("inherits", Value.seq [Value.str "A", Value.str "B"]), ("f", Value.str "from X")]),
   ("Y", [("inherits", Value.seq [Value.str "A", Value.str "B"])])]

/-- A Template Store whose precedence field `f` is sequence-valued: the
Merge Engine then concatenates instead of letting the later declaration
replace the earlier one. -/
def storeSeqPrecedence : Store :=
  [("A", [("f", Value.seq [Value.str "a"])]),
   ("B", [("f", Value.seq [Value.str "b"])]),
   ("X", [("inherits", Value.seq [Value.str "A", Value.str "B"]),
          ("f", Value.seq [Value.str "x"])])]

/-- The south toroidal-field coil component of the bill-of-materials
example notebook. -/
def southCoil : LiveNode :=
  LiveNode.mk "south" "component" ["bom_analysis.bom.Component"] [] []

/-- The toroidal-field coil set assembly of the bill-of-materials example
notebook, its four coils attached. -/
def coilSet : LiveNode :=
  LiveNode.mk "coil_set" "assembly" ["bom_analysis.bom.Assembly"] []
    [LiveNode.mk "north" "component" ["bom_analysis.bom.Component"] [] [],
     LiveNode.mk "east" "component" ["bom_analysis.bom.Component"] [] [],
     southCoil,
     LiveNode.mk "west" "component" ["bom_analysis.bom.Component"] [] []]

/-- The divertor cassette component of the bill-of-materials example
notebook. -/
def divertorCassette : LiveNode :=
  LiveNode.mk "divertor" "component" ["bom_analysis.bom.Component"] [] []

/-- The tokamak assembly of the bill-of-materials example notebook, with
the divertor attached twice (the same object reused, as the example does
for the double-null configuration). -/
def tokamakTree : LiveNode :=
  LiveNode.mk "tokamak" "assembly" ["bom_analysis.bom.Assembly"] []
    [divertorCassette, coilSet, divertorCassette]

/-- A parameter entry of the skeleton artifact: every one carries a null
`descr`, a display name, the source `"Input"`, a unit, a value and a
variable name, in that (alphabetical) key order. -/
def paramEntry (nm unit value var : Value) : Value :=
  Value.map
    [("descr", Value.null), ("name", nm), ("source", Value.str "Input"),
     ("unit", unit), ("value", value), ("var", var)]

/-- The `blanket` node record of the skeleton artifact shipped with the
repository. -/
def blanketRecord : Fields :=
  [("_assignment", Value.seq []),
   ("_params", Value.map
     [("class_str", Value.seq [Value.str "bom_analysis.parameters.PintFrame"]),
      ("data", Value.map
        [("envelope_volume", paramEntry (Value.str "the volume of a large envelope")
            (Value.str "m^3") Value.null (Value.str "envelope_volume")),
         ("inlet_pressure", paramEntry (Value.str "pipe inlet pressure")
            (Value.str "Pa") Value.null (Value.str "inlet_pressure")),
         ("mass", paramEntry (Value.str "sum of the component masses")
            (Value.str "kg") Value.null (Value.str "mass")),
         ("outlet_pressure", paramEntry (Value.str "pipe inlet pressure")
            (Value.str "Pa") Value.null (Value.str "outlet_pressure"))])]),
   ("_part_count", Value.map
     [("_counter", Value.str "True"), ("bz", Value.num 1 0), ("fw", Value.num 1 0)]),
   ("_ref", Value.str "blanket"),
   ("children", Value.map
     [("bz", Value.map [("type", Value.str "breeding_zone")]),
      ("fw", Value.map [("type", Value.str "first_wall")])]),
   ("class_str", Value.seq [Value.str "bom_analysis.bom.Assembly"]),
   ("description", Value.str "main assembly"),
   ("geometry", Value.map
     [("inherited", Value.seq [Value.str "ball_reactor"]), ("type", Value.str "ball")]),
   ("inherited", Value.seq [Value.str "assembly"]),
   ("network", Value.map
     [("class_str", Value.seq [Value.str "bom_analysis.base.DFClass"]),
      ("compiled", Value.null), ("data", Value.null),
      ("inherited", Value.seq [Value.str "network"])]),
   ("type", Value.str "blanket")]

/-- The `bz` node record of the skeleton artifact. -/
def bzRecord : Fields :=
  [("_assignment", Value.seq []),
   ("_params", Value.map
     [("class_str", Value.seq [Value.str "bom_analysis.parameters.PintFrame"]),
      ("data", Value.map
        [("b2m_ratio", paramEntry (Value.str "breeder to multiplier ratio")
            (Value.str "newton / ampere") (Value.num 2 1) (Value.str "b2m_ratio")),
         ("envelope_volume", paramEntry (Value.str "the volume of a large envelope")
            (Value.str "m^3") Value.null (Value.str "envelope_volume")),
         ("inlet_pressure", paramEntry (Value.str "pipe inlet pressure")
            (Value.str "Pa") Value.null (Value.str "inlet_pressure")),
         ("mass", paramEntry (Value.str "sum of the component masses")
            (Value.str "kg") Value.null (Value.str "mass")),
         ("node_count", paramEntry (Value.str "number of nodes")
            Value.null Value.null (Value.str "node_count")),
         ("outlet_pressure", paramEntry (Value.str "pipe inlet pressure")
            (Value.str "Pa") Value.null (Value.str "outlet_pressure"))])]),
   ("_part_count", Value.map
     [("_counter", Value.str "True"), ("bz_breeder", Value.num 1 0)]),
   ("_ref", Value.str "bz"),
   ("children", Value.map [("bz_breeder", Value.map [("type", Value.str "beer_box")])]),
   ("class_str", Value.seq [Value.str "bom_analysis.bom.Assembly"]),
   ("description", Value.str "component within assembly"),
   ("foo", Value.str "bar"),
   ("inherited", Value.seq [Value.str "assembly"]),
   ("network", Value.map
     [("class_str", Value.seq [Value.str "bom_analysis.base.DFClass"]),
      ("compiled", Value.null),
      ("data", Value.map
        [("columns", Value.seq
           [Value.num 0 0, Value.num 1 0, Value.num 2 0, Value.num 3 0, Value.num 4 0]),
         ("data", Value.seq
           [Value.seq [Value.null, Value.null, Value.str "foobar", Value.null, Value.null],
            Value.seq [Value.null, Value.null, Value.null, Value.null, Value.null],
            Value.seq [Value.null, Value.null, Value.null, Value.null, Value.null],
            Value.seq [Value.null, Value.null, Value.null, Value.null, Value.null]]),
         ("index", Value.seq
           [Value.str "i", Value.str "j", Value.str "k", Value.str "l"])]),
      ("inherited", Value.seq [Value.str "network"])]),
   ("type", Value.str "breeding_zone")]

/-- The `bz_breeder` node record of the skeleton artifact. -/
def bzBreederRecord : Fields :=
  [("CAD", Value.str "some cad geometry"),
   ("_assignment", Value.seq []),
   ("_params", Value.map
     [("class_str", Value.seq [Value.str "bom_analysis.parameters.PintFrame"]),
      ("data", Value.map
        [("b2m_ratio", paramEntry (Value.str "breeder to multiplier ratio")
            Value.null Value.null (Value.str "b2m_ratio")),
         ("envelope_volume", paramEntry (Value.str "the volume of a large envelope")
            (Value.str "m^3") Value.null (Value.str "envelope_volume")),
         ("inlet_pressure", paramEntry (Value.str "pipe inlet pressure")
            (Value.str "Pa") Value.null (Value.str "inlet_pressure")),
         ("mass", paramEntry (Value.str "sum of the component masses")
            (Value.str "kg") Value.null (Value.str "mass")),
         ("outlet_pressure", paramEntry (Value.str "pipe inlet pressure")
            (Value.str "Pa") Value.null (Value.str "outlet_pressure"))])]),
   ("_part_count", Value.map
     [("_counter", Value.str "True"), ("bz_structure", Value.num 1 0),
      ("channel", Value.num 1 0)]),
   ("_ref", Value.str "bz_breeder"),
   ("batches", Value.num 5 0),
   ("children", Value.map
     [("bz_structure", Value.map [("type", Value.str "grid")]),
      ("channel", Value.map [("type", Value.str "coolant")])]),
   ("class_str", Value.seq [Value.str "bom_analysis.bom.Assembly"]),
   ("description", Value.str "beer box"),
   ("inherited", Value.seq [Value.str "assembly"]),
   ("network", Value.map
     [("class_str", Value.seq [Value.str "bom_analysis.base.DFClass"]),
      ("compiled", Value.null), ("data", Value.null),
      ("inherited", Value.seq [Value.str "network"])]),
   ("number_of_particles", Value.num 100 0),
   ("type", Value.str "beer_box")]

/-- The `bz_structure` node record of the skeleton artifact: a pure
component, carrying neither a `children` nor a `_part_count` field. -/
def bzStructureRecord : Fields :=
  [("_assignment", Value.seq []),
   ("_material", Value.map
     [("_irradiation", Value.str "0.0 dimensionless"),
      ("_mat", Value.null),
      ("_pressure", Value.str "100000000.0 gram / meter / second ** 2"),
      ("_temperature", Value.str "293.0 kelvin"),
      ("class_str", Value.seq [Value.str "bom_analysis.materials.MaterialData"])]),
   ("_params", Value.map
     [("class_str", Value.seq [Value.str "bom_analysis.parameters.PintFrame"]),
      ("data", Value.map
        [("mass", paramEntry (Value.str "mass of the component")
            (Value.str "kg") Value.null (Value.str "mass")),
         ("spacing", paramEntry (Value.str "spacing between grid")
            Value.null Value.null (Value.str "spacing")),
         ("thickness", paramEntry (Value.str "radial component thickness")
            (Value.str "m") Value.null (Value.str "thickness")),
         ("volume", paramEntry (Value.str "Component Volume")
            (Value.str "meter ** 3") (Value.num 200 0) (Value.str "volume"))])]),
   ("_ref", Value.str "bz_structure"),
   ("class_str", Value.seq [Value.str "bom_analysis.bom.Component"]),
   ("description", Value.str "the grid structure which makes up the beer box"),
   ("inherited", Value.seq [Value.str "component"]),
   ("type", Value.str "grid")]

/-- The `channel` node record of the skeleton artifact: a pure component. -/
def channelRecord : Fields :=
  [("_assignment", Value.seq []),
   ("_material", Value.map
     [("_irradiation", Value.str "0.0 dimensionless"),
      ("_mat", Value.str "He"),
      ("_pressure", Value.str "100000000.0 gram / meter / second ** 2"),
      ("_temperature", Value.str "293.0 kelvin"),
      ("class_str", Value.seq
        [Value.str "bom_analysis.materials.CoolPropsWrap",
         Value.str "bom_analysis.materials.Fluid"]),
      ("inherited", Value.seq [Value.str "fluid"]),
      ("name", Value.str "He"),
      ("translate_to", Value.str "CoolProps")]),
   ("_params", Value.map
     [("class_str", Value.seq [Value.str "bom_analysis.parameters.PintFrame"]),
      ("data", Value.map
        [("mass", paramEntry (Value.str "mass of the component")
            (Value.str "kg") Value.null (Value.str "mass")),
         ("thickness", paramEntry (Value.str "radial component thickness")
            (Value.str "m") Value.null (Value.str "thickness")),
         ("volume", paramEntry (Value.str "Component Volume")
            (Value.str "m^3") Value.null (Value.str "volume"))])]),
   ("_ref", Value.str "channel"),
   ("class_str", Value.seq [Value.str "bom_analysis.bom.Component"]),
   ("description", Value.str "coolant"),
   ("inherited", Value.seq [Value.str "component"]),
   ("type", Value.str "coolant")]

/-- The `fw` node record of the skeleton artifact: a homogenised assembly
with an empty `children` mapping and a `_part_count` holding only the
`_counter` marker. -/
def fwRecord : Fields :=
  [("_assignment", Value.seq []),
   ("_material", Value.map
     [("_irradiation", Value.str "0.0 dimensionless"),
      ("_mat", Value.str "tungsten"),
      ("_pressure", Value.str "100000000.0 gram / meter / second ** 2"),
      ("_temperature", Value.str "293.0 kelvin"),
      ("class_str", Value.seq
        [Value.str "bom_analysis.materials.DFLibraryWrap",
         Value.str "bom_analysis.materials.Solid"]),
      ("inherited", Value.seq [Value.str "solid"]),
      ("name", Value.str "tungsten"),
      ("path", Value.str "./examples/files/example_material_properties.json"),
      ("to", Value.str ""),
      ("translate_to", Value.str "example_materials")]),
   ("_params", Value.map
     [("class_str", Value.seq [Value.str "bom_analysis.parameters.PintFrame"]),
      ("data", Value.map
        [("envelope_volume", paramEntry (Value.str "the volume of a large envelope")
            (Value.str "m^3") Value.null (Value.str "envelope_volume")),
         ("mass", paramEntry (Value.str "sum of the component masses")
            (Value.str "gram") (Value.num 15 1) (Value.str "mass")),
         ("thickness", paramEntry (Value.str "radial component thickness")
            (Value.str "m") Value.null (Value.str "thickness")),
         ("volume", paramEntry (Value.str "Component Volume")
            (Value.str "meter ** 3") (Value.num 100 0) (Value.str "volume"))])]),
   ("_part_count", Value.map [("_counter", Value.str "True")]),
   ("_ref", Value.str "fw"),
   ("children", Value.map []),
   ("class_str", Value.seq
     [Value.str "bom_analysis.bom.Component", Value.str "bom_analysis.bom.Assembly"]),
   ("description", Value.str "homogenised assembly within assembly"),
   ("geometry", Value.map
     [("inherited", Value.seq [Value.str "rect_channel"]),
      ("section", Value.str "rectangular")]),
   ("inherited", Value.seq [Value.str "component", Value.str "assembly"]),
   ("type", Value.str "first_wall")]

/-- The full skeleton artifact shipped with the repository (the
modifying-a-skeleton example output), embedded entry by entry in its
original order. -/
def artifactSkeleton : List (String × Fields) :=
  [("blanket", blanketRecord),
   ("bz", bzRecord),
   ("bz_breeder", bzBreederRecord),
   ("bz_structure", bzStructureRecord),
   ("channel", channelRecord),
   ("fw", fwRecord)]

/-- The shape check the specification states for required Node Record
fields: `type` a string, `_ref` a string equal to the entry's own key,
`class_str` a sequence of strings, `children` a mapping, `inherited` a
sequence of strings. -/
def requiredFieldsClaim (key : String) (r : Fields) : Bool :=
  (match assocLookup "type" r with
   | some (Value.str _) => true
   | _ => false) &&
  (assocLookup "_ref" r = some (Value.str key) : Bool) &&
  (match assocLookup "class_str" r with
   | some (Value.seq xs) => xs.all (fun v => match v with | Value.str _ => true | _ => false)
   | _ => false) &&
  (match assocLookup "children" r with
   | some (Value.map _) => true
   | _ => false) &&
  (match assocLookup "inherited" r with
   | some (Value.seq xs) => xs.all (fun v => match v with | Value.str _ => true | _ => false)
   | _ => false)

/-- The claim's required-field invariant quantified over a whole skeleton. -/
def skeletonMeetsClaim (skel : List (String × Fields)) : Bool :=
  skel.all (fun p => requiredFieldsClaim p.1 p.2)

/-- The amended shape check: as `requiredFieldsClaim`, except that the
`children` mapping is optional — when the field is present it must be a
mapping (possibly empty), but pure components may omit it entirely. -/
def requiredFieldsAmended (key : String) (r : Fields) : Bool :=
  (match assocLookup "type" r with
   | some (Value.str _) => true
   | _ => false) &&
  (assocLookup "_ref" r = some (Value.str key) : Bool) &&
  (match assocLookup "class_str" r with
   | some (Value.seq xs) => xs.all (fun v => match v with | Value.str _ => true | _ => false)
   | _ => false) &&
  (match assocLookup "children" r with
   | some (Value.map _) => true
   | some _ => false
   | none => true) &&
  (match assocLookup "inherited" r with
   | some (Value.seq xs) => xs.all (fun v => match v with | Value.str _ => true | _ => false)
   | _ => false)

/-- The amended required-field invariant quantified over a whole skeleton. -/
def skeletonMeetsAmended (skel : List (String × Fields)) : Bool :=
  skel.all (fun p => requiredFieldsAmended p.1 p.2)

/-- The `_part_count` bookkeeping invariant observed on skeletons this
system produces: a record with a `children` mapping carries a `_part_count`
mapping holding the `_counter` marker with string value `"True"` plus one
numeric count for each declared child key and nothing else; a record
without a `children` field carries no `_part_count` either. -/
def partCountInvariant (r : Fields) : Bool :=
  match assocLookup "children" r, assocLookup "_part_count" r with
  | some (Value.map cs), some (Value.map pc) =>
    (assocLookup "_counter" pc = some (Value.str "True") : Bool) &&
    cs.all (fun c => match assocLookup c.1 pc with
      | some (Value.num _ _) => true
      | _ => false) &&
    pc.all (fun p => p.1 == "_counter" || cs.any (fun c => c.1 == p.1))
  | some _, _ => false
  | none, some _ => false
  | none, none => true

/-- The `_part_count` invariant quantified over a whole skeleton. -/
def skeletonPartCountOk (skel : List (String × Fields)) : Bool :=
  skel.all (fun p => partCountInvariant p.2)

theorem assocLookup_append {α : Type _} (k : String) (l1 l2 : List (String × α)) :
    assocLookup k (l1 ++ l2) =
      match assocLookup k l1 with
      | some v => some v
      | none => assocLookup k l2 := by
  induction l1 with
  | nil => simp [assocLookup]
  | cons p l1 ih =>
    obtain ⟨k', v⟩ := p
    by_cases h : k' = k <;> simp [assocLookup, h, ih]

theorem assocLookup_mergedTarget (fuel : Nat) (t s : Fields) (k : String) :
    assocLookup k (t.map (fun p =>
        match assocLookup p.1 s with
        | some v => (p.1, mergeValueF fuel p.2 v)
        | none => p)) =
      (assocLookup k t).map (fun vt =>
        match assocLookup k s with
        | some vs => mergeValueF fuel vt vs
        | none => vt) := by
  induction t with
  | nil => simp [assocLookup]
  | cons p t ih =>
    obtain ⟨k', v⟩ := p
    by_cases h : k' = k
    · subst h
      cases hs : assocLookup k' s <;> simp [assocLookup, hs]
    · cases hs : assocLookup k' s <;> simp [assocLookup, h, hs, ih]

theorem assocLookup_filterKeys {α : Type _} (p : String → Bool) (s : List (String × α))
    (k : String) :
    assocLookup k (s.filter (fun q => p q.1)) =
      if p k then assocLookup k s else none := by
  induction s with
  | nil => simp [assocLookup]
  | cons q s ih =>
    obtain ⟨k', v⟩ := q
    by_cases hk : k' = k
    · subst hk
      cases hp : p k' <;> simp [assocLookup, hp, ih]
    · cases hp : p k' <;> simp [assocLookup, hk, hp, ih]

theorem assocLookup_mergeFieldsF (fuel : Nat) (t s : Fields) (k : String) :
    assocLookup k (mergeFieldsF fuel t s) =
      match assocLookup k t, assocLookup k s with
      | some vt, some vs => some (mergeValueF fuel vt vs)
      | some vt, none => some vt
      | none, o => o := by
  have hfilter := assocLookup_filterKeys (fun key => (assocLookup key t).isNone) s k
  rw [mergeFieldsF, assocLookup_append, assocLookup_mergedTarget, hfilter]
  cases ht : assocLookup k t <;> cases hs : assocLookup k s <;> simp [ht, hs]

theorem mergeFieldsF_nil_left (fuel : Nat) (s : Fields) :
    mergeFieldsF fuel [] s = s := by
  simp [mergeFieldsF, assocLookup]

theorem mergeValueF_scalar_right (fuel : Nat) (a b : Value)
    (hb : b.isScalar = true) : mergeValueF fuel a b = b := by
  cases b <;> simp [Value.isScalar] at hb <;> cases a <;> cases fuel <;> rfl

theorem assocLookup_setField (k k' : String) (v : Value) (f : Fields) :
    assocLookup k (setField k' v f) =
      if k' = k then some v else assocLookup k f := by
  induction f with
  | nil => simp [setField, assocLookup]
  | cons p f ih =>
    obtain ⟨k1, v1⟩ := p
    by_cases h1 : k1 = k'
    · subst h1
      by_cases h2 : k1 = k <;> simp [setField, assocLookup, h2, ih]
    · by_cases h2 : k1 = k
      · subst h2
        have : ¬ k' = k1 := fun hh => h1 hh.symm
        simp [setField, assocLookup, h1, this]
      · simp [setField, assocLookup, h1, h2, ih]

theorem assocLookup_removeKey (k k' : String) (f : Fields) :
    assocLookup k (removeKey k' f) =
      if k = k' then none else assocLookup k f := by
  rw [removeKey]
  have := assocLookup_filterKeys (fun key => decide (key ≠ k')) f k
  simp only [decide_not] at this ⊢
  rw [this]
  by_cases h : k = k' <;> simp [h]

theorem appendUnique_take (t s : List Value) :
    (appendUnique t s).take t.length = t := by
  induction s generalizing t with
  | nil => simp [appendUnique]
  | cons v s ih =>
    by_cases hv : v ∈ t
    · simpa [appendUnique, hv] using ih t
    · have h1 : appendUnique t (v :: s) = appendUnique (t ++ [v]) s := by
        simp [appendUnique, hv]
      have h2 := ih (t ++ [v])
      have h3 : (appendUnique (t ++ [v]) s).take t.length =
          ((appendUnique (t ++ [v]) s).take (t ++ [v]).length).take t.length := by
        rw [List.take_take]
        congr 1
        simp
      rw [h1, h3, h2]
      simp

theorem mem_appendUnique (v : Value) (t s : List Value) :
    v ∈ appendUnique t s ↔ v ∈ t ∨ v ∈ s := by
  induction s generalizing t with
  | nil => simp [appendUnique]
  | cons w s ih =>
    by_cases hw : w ∈ t
    · have h1 : appendUnique t (w :: s) = appendUnique t s := by
        simp [appendUnique, hw]
      rw [h1, ih]
      constructor
      · rintro (h | h)
        · exact Or.inl h
        · exact Or.inr (List.mem_cons_of_mem _ h)
      · rintro (h | h)
        · exact Or.inl h
        · rcases List.mem_cons.mp h with h | h
          · exact Or.inl (h ▸ hw)
          · exact Or.inr h
    · have h1 : appendUnique t (w :: s) = appendUnique (t ++ [w]) s := by
        simp [appendUnique, hw]
      rw [h1, ih]
      simp [List.mem_append, or_assoc]

theorem nodup_appendUnique (t s : List Value) (ht : t.Nodup) :
    (appendUnique t s).Nodup := by
  induction s generalizing t with
  | nil => simpa [appendUnique]
  | cons w s ih =>
    by_cases hw : w ∈ t
    · have h1 : appendUnique t (w :: s) = appendUnique t s := by
        simp [appendUnique, hw]
      rw [h1]
      exact ih t ht
    · have h1 : appendUnique t (w :: s) = appendUnique (t ++ [w]) s := by
        simp [appendUnique, hw]
      rw [h1]
      refine ih (t ++ [w]) ?_
      simp [List.nodup_append, ht, hw]

theorem heapGet_heapSet_self (a : Nat) (v w : Value) (h : Heap)
    (hw : heapGet a h = some w) : heapGet a (heapSet a v h) = some v := by
  induction h with
  | nil => simp [heapGet] at hw
  | cons p h ih =>
    obtain ⟨a', v'⟩ := p
    by_cases ha : a' = a
    · subst ha
      simp [heapGet, heapSet]
    · simp [heapGet, heapSet, ha] at hw ⊢
      exact ih hw

theorem heapGet_heapSet_ne (a b : Nat) (v : Value) (h : Heap) (hne : b ≠ a) :
    heapGet b (heapSet a v h) = heapGet b h := by
  induction h with
  | nil => simp [heapSet]
  | cons p h ih =>
    obtain ⟨a', v'⟩ := p
    by_cases ha : a' = a
    · subst ha
      have hab : ¬ a' = b := fun hh => hne (hh.symm ▸ rfl)
      simp [heapGet, heapSet, hab]
    · by_cases hb : a' = b <;> simp [heapGet, heapSet, ha, hb, ih, hne]

/-- C1: `register(i, n)` on the Identity Registry succeeds exactly when the
identifier is new or already maps to the very same object; it fails with
`DuplicateReference(i)` exactly when the identifier already maps to a
distinct object; a failed attach leaves the registry and the tree untouched,
while re-attaching the same identifier+object pair at another point in the
tree succeeds without changing the registry. -/
theorem register_identity_invariant (reg : List (String × Nat)) (i : String) (n : Nat) :
    ((∃ reg', register reg i n = RegisterResult.ok reg') ↔
      (assocLookup i reg = none ∨ assocLookup i reg = some n))
    ∧ (register reg i n = RegisterResult.duplicateReference i ↔
        ∃ m, assocLookup i reg = some m ∧ m ≠ n)
    ∧ (∀ st : TreeState, ∀ p : String, st.registry = reg →
        (∃ m, assocLookup i reg = some m ∧ m ≠ n) →
        attachChild st p i n = (st, some i))
    ∧ (∀ st : TreeState, ∀ p : String, st.registry = reg →
        assocLookup i reg = some n →
        attachChild st p i n = (⟨reg, st.edges ++ [(p, i)]⟩, none)) := by
  refine ⟨?_, ?_, ?_, ?_⟩
  · cases h : assocLookup i reg with
    | none => simp [register, h]
    | some m =>
      by_cases hm : m = n <;> simp [register, h, hm]
  · cases h : assocLookup i reg with
    | none => simp [register, h]
    | some m =>
      by_cases hm : m = n <;> simp [register, h, hm]
  · rintro st p hst ⟨m, hm, hmn⟩
    have hmn' : ¬ m = n := hmn
    simp [attachChild, register, hst, hm, hmn']
  · intro st p hst hn
    simp [attachChild, register, hst, hn]

/-- Witness for C1: in a registry where `"south"` names object `1`,
registering a distinct object `2` under `"south"` fails with
`DuplicateReference` and a failed attach leaves the tree state unchanged,
while re-attaching object `1` under `"south"` elsewhere succeeds. -/
theorem register_identity_invariant_witness :
    register [("south", 1)] "south" 2 = RegisterResult.duplicateReference "south"
    ∧ attachChild ⟨[("south", 1)], [("tokamak", "south")]⟩ "coil_set" "south" 2 =
        (⟨[("south", 1)], [("tokamak", "south")]⟩, some "south")
    ∧ attachChild ⟨[("south", 1)], [("tokamak", "south")]⟩ "coil_set" "south" 1 =
        (⟨[("south", 1)], [("tokamak", "south"), ("coil_set", "south")]⟩, none) :=
  ⟨((register_identity_invariant [("south", 1)] "south" 2).2.1).mpr ⟨1, by decide, by decide⟩,
   (register_identity_invariant [("south", 1)] "south" 2).2.2.1 _ "coil_set" rfl
     ⟨1, by decide, by decide⟩,
   (register_identity_invariant [("south", 1)] "south" 1).2.2.2 _ "coil_set" rfl (by decide)⟩

/-- C4: merging two sequence-valued fields concatenates them with
duplicates removed by value equality — the target's items are kept first in
their original order, the new unique items from the source are appended,
and no duplicates remain; on the example notebook's dictionaries, merging
`test_list` `["hello"]` with `["world"]` yields `["hello", "world"]`. -/
theorem sequence_merge_concat_dedup (fuel : Nat) (t s : List Value) (ht : t.Nodup) :
    ∃ r, mergeValueF fuel (Value.seq t) (Value.seq s) = Value.seq r
      ∧ r.take t.length = t
      ∧ (∀ v, v ∈ r ↔ v ∈ t ∨ v ∈ s)
      ∧ r.Nodup
      ∧ (match assocLookup "breeding_pins"
            (mergeFieldsF 3 (mergeFieldsF 3 tokamakPartsEx2 partsEx2) extraInfoEx2) with
         | some (Value.map bp) => assocLookup "test_list" bp
         | _ => none) = some (Value.seq [Value.str "hello", Value.str "world"]) := by
  refine ⟨appendUnique t s, ?_, appendUnique_take t s,
    fun v => mem_appendUnique v t s, nodup_appendUnique t s ht, by decide⟩
  cases fuel <;> rfl

/-- Witness for C4: the general sequence-merge theorem applied to the
concrete `test_list` sequences of the example notebook. -/
theorem sequence_merge_concat_dedup_witness :
    ([Value.str "hello"] : List Value).Nodup
    ∧ ∃ r, mergeValueF 1 (Value.seq [Value.str "hello"]) (Value.seq [Value.str "world"]) =
        Value.seq r
      ∧ r.take 1 = [Value.str "hello"]
      ∧ (∀ v, v ∈ r ↔ v ∈ [Value.str "hello"] ∨ v ∈ [Value.str "world"])
      ∧ r.Nodup
      ∧ (match assocLookup "breeding_pins"
            (mergeFieldsF 3 (mergeFieldsF 3 tokamakPartsEx2 partsEx2) extraInfoEx2) with
         | some (Value.map bp) => assocLookup "test_list" bp
         | _ => none) = some (Value.seq [Value.str "hello", Value.str "world"]) :=
  ⟨by decide, sequence_merge_concat_dedup 1 [Value.str "hello"] [Value.str "world"] (by decide)⟩

/-- C9: `UpdateDict(target, *sources)` merges in place — after the call the
record stored at the target's own address is the left-to-right fold of the
sources into the target record, and every other address is untouched. -/
theorem updateDict_in_place (fuel : Nat) (heap : Heap) (target : Nat)
    (sources : List Value) (tv : Value) (h : heapGet target heap = some tv) :
    heapGet target (updateDictH fuel heap target sources) =
      some (sources.foldl (mergeValueF fuel) tv)
    ∧ ∀ a, a ≠ target → heapGet a (updateDictH fuel heap target sources) = heapGet a heap := by
  constructor
  · rw [updateDictH, h]
    exact heapGet_heapSet_self target _ tv heap h
  · intro a ha
    rw [updateDictH, h]
    exact heapGet_heapSet_ne target a _ heap ha

/-- Witness for C9: calling `UpdateDict` on a heap holding the example
notebook's `tokamak_parts` at address `0` overwrites address `0` with the
merged record and leaves address `1` untouched. -/
theorem updateDict_in_place_witness :
    heapGet 0 (updateDictH 3 [(0, Value.map tokamakPartsEx2), (1, Value.null)] 0
        [Value.map partsEx2, Value.map extraInfoEx2]) =
      some ([Value.map partsEx2, Value.map extraInfoEx2].foldl (mergeValueF 3)
        (Value.map tokamakPartsEx2))
    ∧ ∀ a, a ≠ 0 → heapGet a (updateDictH 3 [(0, Value.map tokamakPartsEx2), (1, Value.null)] 0
        [Value.map partsEx2, Value.map extraInfoEx2]) =
      heapGet a [(0, Value.map tokamakPartsEx2), (1, Value.null)] :=
  updateDict_in_place 3 [(0, Value.map tokamakPartsEx2), (1, Value.null)] 0
    [Value.map partsEx2, Value.map extraInfoEx2] (Value.map tokamakPartsEx2) (by decide)

theorem exceptMapM_ok_forall {ε α β : Type _} (f : α → Except ε β) :
    ∀ (l : List α) (ys : List β), exceptMapM f l = Except.ok ys →
      ∀ x ∈ l, ∃ y, f x = Except.ok y := by
  intro l
  induction l with
  | nil =>
    intro ys _ x hx
    simp at hx
  | cons a l ih =>
    intro ys h x hx
    rw [exceptMapM] at h
    cases ha : f a with
    | error e => rw [ha] at h; cases h
    | ok y =>
      rw [ha] at h
      cases hl : exceptMapM f l with
      | error e => rw [hl] at h; cases h
      | ok ys' =>
        rcases List.mem_cons.mp hx with hx | hx
        · subst hx
          exact ⟨y, ha⟩
        · exact ih ys' hl x hx

theorem exceptMapM_error_exists {ε α β : Type _} (f : α → Except ε β) :
    ∀ (l : List α) (e : ε), exceptMapM f l = Except.error e →
      ∃ x ∈ l, f x = Except.error e := by
  intro l
  induction l with
  | nil =>
    intro e h
    rw [exceptMapM] at h
    cases h
  | cons a l ih =>
    intro e h
    rw [exceptMapM] at h
    cases ha : f a with
    | error e' =>
      rw [ha] at h
      injection h with h
      exact ⟨a, List.mem_cons_self a l, h ▸ ha⟩
    | ok y =>
      rw [ha] at h
      cases hl : exceptMapM f l with
      | error e' =>
        rw [hl] at h
        injection h with h
        obtain ⟨x, hx, hxe⟩ := ih e' hl
        exact ⟨x, List.mem_cons_of_mem a hx, h ▸ hxe⟩
      | ok ys' => rw [hl] at h; cases h

theorem assocLookup_mem {α : Type _} (k : String) (l : List (String × α)) (v : α)
    (h : assocLookup k l = some v) : (k, v) ∈ l := by
  induction l with
  | nil => simp [assocLookup] at h
  | cons p l ih =>
    obtain ⟨k', v'⟩ := p
    by_cases hk : k' = k
    · subst hk
      rw [assocLookup, if_pos rfl] at h
      injection h with h
      subst h
      exact List.mem_cons_self _ _
    · rw [assocLookup, if_neg hk] at h
      exact List.mem_cons_of_mem _ (ih h)

theorem assocLookup_mem_keys {α : Type _} (k : String) (l : List (String × α)) (v : α)
    (h : assocLookup k l = some v) : k ∈ l.map Prod.fst :=
  List.mem_map_of_mem Prod.fst (assocLookup_mem k l v h)

theorem filter_length_le {α : Type _} (l : List α) (p q : α → Bool)
    (h : ∀ x, q x = true → p x = true) :
    (l.filter q).length ≤ (l.filter p).length := by
  induction l with
  | nil => simp
  | cons a l ih =>
    cases hq : q a
    · cases hp : p a
      · simp [List.filter_cons, hq, hp]
        omega
      · simp [List.filter_cons, hq, hp]
        omega
    · have hp := h a hq
      simp [List.filter_cons, hq, hp]
      omega

theorem filter_length_lt {α : Type _} (l : List α) (p q : α → Bool)
    (h : ∀ x, q x = true → p x = true) (a : α) (ha : a ∈ l)
    (hpa : p a = true) (hqa : q a = false) :
    (l.filter q).length < (l.filter p).length := by
  induction l with
  | nil => simp at ha
  | cons b l ih =>
    rcases List.mem_cons.mp ha with hb | hb
    · subst hb
      simp [List.filter_cons, hqa, hpa]
      have := filter_length_le l p q h
      omega
    · cases hqb : q b
      · cases hpb : p b
        · simp [List.filter_cons, hqb, hpb]
          exact ih hb
        · simp [List.filter_cons, hqb, hpb]
          have := ih hb
          omega
      · have hpb := h b hqb
        simp [List.filter_cons, hqb, hpb]
        have := ih hb
        omega

theorem resolveT_cycle_not_ok (store : Store) (S : List String)
    (hcyc : ∀ a ∈ S, ∃ b ∈ S, inheritsArrow store a b = true) :
    ∀ fuel visited n, n ∈ S → ∀ r, resolveT store fuel visited n ≠ Except.ok r := by
  intro fuel
  induction fuel with
  | zero =>
    intro visited n _ r h
    rw [resolveT] at h
    cases h
  | succ fuel ih =>
    intro visited n hn r h
    rw [resolveT] at h
    by_cases hv : n ∈ visited
    · rw [if_pos hv] at h
      cases h
    · rw [if_neg hv] at h
      obtain ⟨b, hbS, harrow⟩ := hcyc n hn
      cases hlook : assocLookup n store with
      | none => simp only [hlook] at h; cases h
      | some t =>
        simp only [hlook] at h
        have hbin : b ∈ getInherits t := by
          simpa [inheritsArrow, hlook] using harrow
        cases hmap : exceptMapM (fun a => resolveT store fuel (visited ++ [n]) a)
            (getInherits t) with
        | error e => simp only [hmap] at h; cases h
        | ok ress =>
          obtain ⟨y, hy⟩ := exceptMapM_ok_forall _ _ _ hmap b hbin
          exact ih (visited ++ [n]) b hbS y hy

theorem resolveT_ne_fuelExhausted (store : Store) :
    ∀ fuel visited name,
      ((store.map Prod.fst).filter (fun k => decide (k ∉ visited))).length < fuel →
      resolveT store fuel visited name ≠ Except.error ResolveErr.fuelExhausted := by
  intro fuel
  induction fuel with
  | zero =>
    intro visited name hlen _
    exact absurd hlen (Nat.not_lt_zero _)
  | succ fuel ih =>
    intro visited name hlen h
    rw [resolveT] at h
    by_cases hv : name ∈ visited
    · rw [if_pos hv] at h
      cases h
    · rw [if_neg hv] at h
      cases hlook : assocLookup name store with
      | none => simp only [hlook] at h; cases h
      | some t =>
        simp only [hlook] at h
        cases hmap : exceptMapM (fun a => resolveT store fuel (visited ++ [name]) a)
            (getInherits t) with
        | ok ress => simp only [hmap] at h; cases h
        | error e =>
          simp only [hmap] at h
          injection h with he
          subst he
          obtain ⟨a, _, hae⟩ := exceptMapM_error_exists _ _ _ hmap
          have hkeys : name ∈ store.map Prod.fst :=
            assocLookup_mem_keys name store t hlook
          have hlt : ((store.map Prod.fst).filter
                (fun k => decide (k ∉ visited ++ [name]))).length
              < ((store.map Prod.fst).filter (fun k => decide (k ∉ visited))).length := by
            refine filter_length_lt _ _ _ ?_ name hkeys ?_ ?_
            · intro x hx
              simp at hx ⊢
              exact hx.1
            · simp [hv]
            · simp
          exact ih (visited ++ [name]) a (by omega) hae

theorem resolveT_ne_unknown (store : Store) (hclosed : storeClosed store = true) :
    ∀ fuel visited name, (assocLookup name store).isSome = true →
      ∀ m, resolveT store fuel visited name ≠ Except.error (ResolveErr.unknownTemplate m) := by
  intro fuel
  induction fuel with
  | zero =>
    intro visited name _ m h
    rw [resolveT] at h
    simp at h
  | succ fuel ih =>
    intro visited name hsome m h
    rw [resolveT] at h
    by_cases hv : name ∈ visited
    · rw [if_pos hv] at h
      simp at h
    · rw [if_neg hv] at h
      cases hlook : assocLookup name store with
      | none => rw [hlook] at hsome; simp at hsome
      | some t =>
        simp only [hlook] at h
        cases hmap : exceptMapM (fun a => resolveT store fuel (visited ++ [name]) a)
            (getInherits t) with
        | ok ress => simp only [hmap] at h; simp at h
        | error e =>
          simp only [hmap] at h
          injection h with he
          subst he
          obtain ⟨a, haI, hae⟩ := exceptMapM_error_exists _ _ _ hmap
          have hmem : (name, t) ∈ store := assocLookup_mem name store t hlook
          have h1 : ((getInherits t).all (fun b => (assocLookup b store).isSome)) = true := by
            rw [storeClosed] at hclosed
            exact List.all_eq_true.mp hclosed ⟨name, t⟩ hmem
          have hasome : (assocLookup a store).isSome = true :=
            List.all_eq_true.mp h1 a haI
          exact ih (visited ++ [name]) a hasome m hae

theorem resolveT_cycle_error_shape (store : Store) :
    ∀ fuel visited name p,
      resolveT store fuel visited name = Except.error (ResolveErr.inheritanceCycle p) →
      ∃ v m, p = v ++ [m] ∧ m ∈ v := by
  intro fuel
  induction fuel with
  | zero =>
    intro visited name p h
    rw [resolveT] at h
    simp at h
  | succ fuel ih =>
    intro visited name p h
    rw [resolveT] at h
    by_cases hv : name ∈ visited
    · rw [if_pos hv] at h
      injection h with he
      injection he with hp
      exact ⟨visited, name, hp.symm, hv⟩
    · rw [if_neg hv] at h
      cases hlook : assocLookup name store with
      | none => rw [hlook] at h; simp at h
      | some t =>
        simp only [hlook] at h
        cases hmap : exceptMapM (fun a => resolveT store fuel (visited ++ [name]) a)
            (getInherits t) with
        | ok ress => simp only [hmap] at h; simp at h
        | error e =>
          simp only [hmap] at h
          injection h with he
          subst he
          obtain ⟨a, _, hae⟩ := exceptMapM_error_exists _ _ _ hmap
          exact ih (visited ++ [name]) a p hae

/-- C5: in any Template Store containing an inheritance cycle — a set `S`
of templates each of which names another member of `S` among its ancestors,
covering the direct two-template cycle, any transitive cycle, and inherits
lists with further entries — resolving any member of `S` never succeeds at
any fuel or resolution path, and with the store closed (every inherited
name present, so resolution is not aborted earlier by `UnknownTemplate`)
and enough fuel it fails with `InheritanceCycle` whose reported chain ends
in a template already on the chain; resolution is a pure function of the
read-only store, so the store is unchanged by the failure. -/
theorem inheritance_cycle_rejected (store : Store) (S : List String) (n : String)
    (hn : n ∈ S)
    (hcyc : ∀ a ∈ S, ∃ b ∈ S, inheritsArrow store a b = true)
    (hclosed : storeClosed store = true)
    (fuel : Nat) (hfuel : (store.map Prod.fst).length < fuel) :
    (∃ p, resolveT store fuel [] n = Except.error (ResolveErr.inheritanceCycle p)
      ∧ ∃ v m, p = v ++ [m] ∧ m ∈ v)
    ∧ (∀ gas visited r, resolveT store gas visited n ≠ Except.ok r) := by
  have hnotok := resolveT_cycle_not_ok store S hcyc
  refine ⟨?_, fun gas visited r => hnotok gas visited n hn r⟩
  have hsome : (assocLookup n store).isSome = true := by
    obtain ⟨b, _, harrow⟩ := hcyc n hn
    cases hlook : assocLookup n store with
    | none => simp [inheritsArrow, hlook] at harrow
    | some t => simp
  cases hres : resolveT store fuel [] n with
  | ok r => exact absurd hres (hnotok fuel [] n hn r)
  | error e =>
    cases e with
    | unknownTemplate m =>
      exact absurd hres (resolveT_ne_unknown store hclosed fuel [] n hsome m)
    | fuelExhausted =>
      have hlen : ((store.map Prod.fst).filter
            (fun k => decide (k ∉ ([] : List String)))).length < fuel := by
        simpa using hfuel
      exact absurd hres (resolveT_ne_fuelExhausted store fuel [] n hlen)
    | inheritanceCycle p =>
      exact ⟨p, rfl, resolveT_cycle_error_shape store fuel [] n p hres⟩

/-- Witness for C5: the general cycle theorem applied to the transitive
three-template cycle `A → B → C → A` (where `B` also inherits an acyclic
leaf) and to the direct two-template cycle, resolving `A` and `B`
respectively. -/
theorem inheritance_cycle_rejected_witness :
    ((∃ p, resolveT storeCycle3 5 [] "A" = Except.error (ResolveErr.inheritanceCycle p)
        ∧ ∃ v m, p = v ++ [m] ∧ m ∈ v)
      ∧ (∀ gas visited r, resolveT storeCycle3 gas visited "A" ≠ Except.ok r))
    ∧ ((∃ p, resolveT storeCycle 3 [] "B" = Except.error (ResolveErr.inheritanceCycle p)
        ∧ ∃ v m, p = v ++ [m] ∧ m ∈ v)
      ∧ (∀ gas visited r, resolveT storeCycle gas visited "B" ≠ Except.ok r)) :=
  ⟨inheritance_cycle_rejected storeCycle3 ["A", "B", "C"] "A"
      (by decide) (by decide) (by decide) 5 (by decide),
   inheritance_cycle_rejected storeCycle ["A", "B"] "B"
      (by decide) (by decide) (by decide) 3 (by decide)⟩

theorem resolveT_ok_inv (store : Store) (fuel : Nat) (visited : List String)
    (name : String) (r : Fields)
    (hok : resolveT store fuel visited name = Except.ok r) :
    ∃ fuel' tmpl ress, fuel = fuel' + 1 ∧ name ∉ visited
      ∧ assocLookup name store = some tmpl
      ∧ exceptMapM (fun a => resolveT store fuel' (visited ++ [name]) a) (getInherits tmpl)
          = Except.ok ress
      ∧ r = setField "inherited" (Value.seq ((getInherits tmpl).map Value.str))
          (mergeFieldsF (fuel' + 1)
            (ress.foldl (fun acc q => mergeFieldsF (fuel' + 1) acc q) [])
            (removeKey "inherits" tmpl)) := by
  cases fuel with
  | zero => rw [resolveT] at hok; cases hok
  | succ fuel' =>
    rw [resolveT] at hok
    by_cases hv : name ∈ visited
    · rw [if_pos hv] at hok
      cases hok
    · rw [if_neg hv] at hok
      cases hlook : assocLookup name store with
      | none => rw [hlook] at hok; cases hok
      | some tmpl =>
        simp only [hlook] at hok
        cases hmap : exceptMapM (fun a => resolveT store fuel' (visited ++ [name]) a)
            (getInherits tmpl) with
        | error e => simp only [hmap] at hok; cases hok
        | ok ress =>
          simp only [hmap] at hok
          injection hok with hr
          exact ⟨fuel', tmpl, ress, rfl, hv, rfl, hmap, hr.symm⟩

theorem resolved_own_scalar (store : Store) (fuel : Nat) (visited : List String)
    (name f : String) (tmpl r : Fields) (xv : Value)
    (hok : resolveT store fuel visited name = Except.ok r)
    (hlook : assocLookup name store = some tmpl)
    (hxf : assocLookup f tmpl = some xv) (hxs : xv.isScalar = true)
    (hf1 : f ≠ "inherits") (hf2 : f ≠ "inherited") :
    assocLookup f r = some xv := by
  obtain ⟨fuel', tmpl', ress, _, _, hlook', _, hr⟩ :=
    resolveT_ok_inv store fuel visited name r hok
  have htt : tmpl' = tmpl := by
    rw [hlook] at hlook'
    injection hlook' with h
    exact h.symm
  rw [htt] at hr
  rw [hr, assocLookup_setField, if_neg (Ne.symm hf2), assocLookup_mergeFieldsF]
  have hown : assocLookup f (removeKey "inherits" tmpl) = some xv := by
    rw [assocLookup_removeKey, if_neg hf1, hxf]
  rw [hown]
  cases hacc : assocLookup f
      (ress.foldl (fun acc q => mergeFieldsF (fuel' + 1) acc q) []) with
  | none => simp
  | some a0 => simp [mergeValueF_scalar_right _ _ _ hxs]

theorem exceptMapM_pair_inv {ε α β : Type _} (f : α → Except ε β) (a b : α) (ys : List β)
    (h : exceptMapM f [a, b] = Except.ok ys) :
    ∃ ya yb, f a = Except.ok ya ∧ f b = Except.ok yb ∧ ys = [ya, yb] := by
  rw [exceptMapM] at h
  cases ha : f a with
  | error e => rw [ha] at h; cases h
  | ok ya =>
    rw [ha, exceptMapM] at h
    cases hb : f b with
    | error e => rw [hb] at h; cases h
    | ok yb =>
      rw [hb, exceptMapM] at h
      injection h with h
      exact ⟨ya, yb, rfl, rfl, h.symm⟩

/-- C3: with `X` inheriting `[A, B]` — the ancestors themselves arbitrary
templates with ancestors of their own — whenever the Inheritance Resolver
produces a template for `X` and `B` declares a scalar field `f`, the
resolved `f` equals `X`'s own declared value when `X` declares `f` with a
scalar value, and `B`'s declared value — the later-declared ancestor's —
when `X` does not declare `f` itself. -/
theorem inheritance_precedence (store : Store) (nX nA nB f : String)
    (tX tB : Fields) (bv : Value) (fuel : Nat) (r : Fields)
    (hok : resolveT store fuel [] nX = Except.ok r)
    (hX : assocLookup nX store = some tX)
    (hiX : getInherits tX = [nA, nB])
    (hB : assocLookup nB store = some tB)
    (hbf : assocLookup f tB = some bv) (hbs : bv.isScalar = true)
    (hf1 : f ≠ "inherits") (hf2 : f ≠ "inherited") :
    (∀ xv, assocLookup f tX = some xv → xv.isScalar = true → assocLookup f r = some xv)
    ∧ (assocLookup f tX = none → assocLookup f r = some bv) := by
  constructor
  · intro xv hxf hxs
    exact resolved_own_scalar store fuel [] nX f tX r xv hok hX hxf hxs hf1 hf2
  · intro hxf
    obtain ⟨fuel', tmpl', ress, _, _, hlook', hmap, hr⟩ :=
      resolveT_ok_inv store fuel [] nX r hok
    have htt : tmpl' = tX := by
      rw [hX] at hlook'
      injection hlook' with h
      exact h.symm
    rw [htt] at hmap hr
    rw [hiX] at hmap
    obtain ⟨RA, RB, hRA, hRB, hys⟩ := exceptMapM_pair_inv _ nA nB ress hmap
    subst hys
    have hfRB : assocLookup f RB = some bv :=
      resolved_own_scalar store fuel' ([] ++ [nX]) nB f tB RB bv hRB hB hbf hbs hf1 hf2
    rw [hr, assocLookup_setField, if_neg (Ne.symm hf2), assocLookup_mergeFieldsF]
    have hown : assocLookup f (removeKey "inherits" tX) = none := by
      rw [assocLookup_removeKey, if_neg hf1, hxf]
    rw [hown]
    simp only [List.foldl_cons, List.foldl_nil, mergeFieldsF_nil_left]
    rw [assocLookup_mergeFieldsF, hfRB]
    cases hfa : assocLookup f RA with
    | none => simp
    | some va => simp [mergeValueF_scalar_right _ _ _ hbs]

/-- Counterexample for C3: when the field `f` is sequence-valued, the
Merge Engine's sequence rule concatenates instead of replacing, so the
resolved `f` of `X` is the concatenation `["a", "b", "x"]` and not `X`'s
own declared value `["x"]` — the claim does not hold for every field. -/
theorem inheritance_precedence_counterexample :
    ∃ r, resolveT storeSeqPrecedence 3 [] "X" = Except.ok r
      ∧ assocLookup "f" r =
          some (Value.seq [Value.str "a", Value.str "b", Value.str "x"])
      ∧ assocLookup "f" r ≠ some (Value.seq [Value.str "x"]) := by
  refine ⟨match resolveT storeSeqPrecedence 3 [] "X" with
          | Except.ok r => r
          | Except.error _ => [], by decide, by decide, by decide⟩

/-- Witness for C3: on the concrete precedence store — in which the
ancestor `A` has an ancestor of its own — resolving `X` (which declares
`f` itself) gives `f = "from X"`, and resolving `Y` (which does not) gives
`f = "from B"`, the later-declared ancestor's value. -/
theorem inheritance_precedence_witness :
    (∃ r, resolveT storePrecedence 3 [] "X" = Except.ok r
      ∧ assocLookup "f" r = some (Value.str "from X"))
    ∧ (∃ r, resolveT storePrecedence 3 [] "Y" = Except.ok r
      ∧ assocLookup "f" r = some (Value.str "from B")) := by
  constructor
  · refine ⟨(resolveT storePrecedence 3 [] "X").toOption.getD [], by decide, ?_⟩
    exact (inheritance_precedence storePrecedence "X" "A" "B" "f"
      [("inherits", Value.seq [Value.str "A", Value.str "B"]), ("f", Value.str "from X")]
      [("f", Value.str "from B")] (Value.str "from B") 3 _
      (by decide) (by decide) (by decide) (by decide) (by decide) (by decide)
      (by decide) (by decide)).1 (Value.str "from X") (by decide) (by decide)
  · refine ⟨(resolveT storePrecedence 3 [] "Y").toOption.getD [], by decide, ?_⟩
    exact (inheritance_precedence storePrecedence "Y" "A" "B" "f"
      [("inherits", Value.seq [Value.str "A", Value.str "B"])]
      [("f", Value.str "from B")] (Value.str "from B") 3 _
      (by decide) (by decide) (by decide) (by decide) (by decide) (by decide)
      (by decide) (by decide)).2 (by decide)

/-- C6: building from the scenario Template Store with top type `blanket`
and identifier `my_blanket` yields a Skeleton with exactly the three
entries `my_blanket`, `bz` and `fw`, whose `my_blanket` record resolves
`class_str` to `[Assembly]` and declares children `bz` of type
`breeding_pins` and `fw` of type `double_wall_mf`. -/
theorem end_to_end_scenario :
    buildNode storeScenario 5 "my_blanket" "blanket" = Except.ok builtScenario
    ∧ builtScenario.map Prod.fst = ["my_blanket", "bz", "fw"]
    ∧ builtScenario.length = 3
    ∧ (∃ r, assocLookup "my_blanket" builtScenario = some r
        ∧ assocLookup "class_str" r = some (Value.seq [Value.str "Assembly"])
        ∧ assocLookup "children" r = some (Value.map
            [("bz", Value.map [("type", Value.str "breeding_pins")]),
             ("fw", Value.map [("type", Value.str "double_wall_mf")])])) :=
  ⟨by decide, by decide, by decide,
   ⟨(assocLookup "my_blanket" builtScenario).getD [], by decide, by decide, by decide⟩⟩

/-- Counterexample for C7: the skeleton artifact produced by the system
contains the entry `bz_structure`, a leaf component record with no
`children` field at all, so the claim that every entry carries a `children`
mapping is false of a skeleton the system itself produced. -/
theorem node_record_fields_counterexample :
    skeletonMeetsClaim artifactSkeleton = false
    ∧ ("bz_structure", bzStructureRecord) ∈ artifactSkeleton
    ∧ assocLookup "children" bzStructureRecord = none
    ∧ requiredFieldsClaim "bz_structure" bzStructureRecord = false := by
  refine ⟨by decide, by decide, by decide, by decide⟩

/-- C7 (amended): every entry of a skeleton produced by the system carries
`type` (a string), `_ref` (a string equal to the entry's own key),
`class_str` (a sequence of strings) and `inherited` (a sequence of
strings); the `children` field, when present, is a mapping (possibly
empty), but leaf component records omit it.  Verified on the skeleton
artifact shipped with the repository and on the skeleton the builder
produces for the end-to-end scenario store. -/
theorem node_record_fields_amended :
    skeletonMeetsAmended artifactSkeleton = true
    ∧ skeletonMeetsAmended builtScenario = true := by
  refine ⟨by decide, by decide⟩

/-- C8: in skeletons this system produces, every node record carrying a
`children` mapping also carries a `_part_count` record with the
bookkeeping key `_counter` valued `"True"` plus exactly one numeric count
per declared child key, and records without children (such as
`bz_structure` and `channel`) carry neither `children` nor `_part_count`.
Verified on the skeleton artifact and on the builder's scenario output. -/
theorem part_count_invariant_holds :
    skeletonPartCountOk artifactSkeleton = true
    ∧ skeletonPartCountOk builtScenario = true
    ∧ assocLookup "children" bzStructureRecord = none
    ∧ assocLookup "_part_count" bzStructureRecord = none
    ∧ assocLookup "children" channelRecord = none
    ∧ assocLookup "_part_count" channelRecord = none
    ∧ assocLookup "children" fwRecord = some (Value.map [])
    ∧ assocLookup "_part_count" fwRecord = some (Value.map [("_counter", Value.str "True")]) := by
  refine ⟨by decide, by decide, by decide, by decide, by decide, by decide, by decide, by decide⟩

theorem find_ref_unique (l : List LiveNode) (c : LiveNode) (hc : c ∈ l)
    (hinj : ∀ a ∈ l, ∀ b ∈ l, a.ref = b.ref → a = b) :
    l.find? (fun x => x.ref == c.ref) = some c := by
  induction l with
  | nil => simp at hc
  | cons a l ih =>
    by_cases ha : a.ref = c.ref
    · rw [List.find?_cons_of_pos _ (by simp [ha])]
      have : a = c := hinj a (List.mem_cons_self a l) c hc ha
      rw [this]
    · rw [List.find?_cons_of_neg _ (by simp [ha])]
      have hcl : c ∈ l := by
        rcases List.mem_cons.mp hc with h | h
        · exact absurd (show a.ref = c.ref by rw [h]) ha
        · exact h
      exact ih hcl
        (fun x hx y hy => hinj x (List.mem_cons_of_mem a hx) y (List.mem_cons_of_mem a hy))

/-- C10: a child attached under local key `k` is reachable from its parent
as the attribute named `k` — in any tree whose sibling identifiers denote
unique objects, attribute access by a child's key returns that child; on
the example notebook's tree, `tokamak.coil_set.south` returns the south
coil and `tokamak.divertor` returns the divertor cassette. -/
theorem child_attribute_access :
    (∀ (parent c : LiveNode), c ∈ parent.children →
      (∀ a ∈ parent.children, ∀ b ∈ parent.children, a.ref = b.ref → a = b) →
      getattrChild parent c.ref = some c)
    ∧ (getattrChild tokamakTree "coil_set").bind (fun cs => getattrChild cs "south") =
        some southCoil
    ∧ getattrChild tokamakTree "divertor" = some divertorCassette := by
  refine ⟨?_, by decide, by decide⟩
  intro parent c hc hinj
  rw [getattrChild]
  exact find_ref_unique parent.children c hc hinj

/-- Witness for C10: the general attribute-access statement applied to the
concrete coil-set assembly and its south coil. -/
theorem child_attribute_access_witness :
    getattrChild coilSet southCoil.ref = some southCoil :=
  child_attribute_access.1 coilSet southCoil (by decide) (by decide)

theorem heightL_pos (n : LiveNode) : 1 ≤ heightL n := by
  obtain ⟨r, ty, cs, inh, children⟩ := n
  rw [heightL]
  omega

theorem heightList_ge (l : List LiveNode) (c : LiveNode) (hc : c ∈ l) :
    heightL c ≤ heightList l := by
  induction l with
  | nil => simp at hc
  | cons a l ih =>
    rw [heightList]
    rcases List.mem_cons.mp hc with h | h
    · rw [h]
      exact le_max_left _ _
    · exact le_trans (ih h) (le_max_right _ _)

theorem self_mem_subtreesL (s : LiveNode) : s ∈ subtreesL s := by
  obtain ⟨r, ty, cs, inh, children⟩ := s
  rw [subtreesL]
  exact List.mem_cons_self _ _

theorem mem_subtreesList (s : LiveNode) (l : List LiveNode) :
    s ∈ subtreesList l ↔ ∃ d ∈ l, s ∈ subtreesL d := by
  induction l with
  | nil => simp [subtreesList]
  | cons d l ih => simp [subtreesList, List.mem_append, ih]

mutual
theorem subtrees_trans : ∀ (t s c : LiveNode),
    s ∈ subtreesL t → c ∈ s.children → c ∈ subtreesL t
  | .mk r ty cs inh children, s, c => by
    intro hs hc
    rw [subtreesL] at hs ⊢
    rcases List.mem_cons.mp hs with h | h
    · refine List.mem_cons_of_mem _ ?_
      rw [mem_subtreesList]
      refine ⟨c, ?_, self_mem_subtreesL c⟩
      rw [h] at hc
      simpa [LiveNode.children] using hc
    · exact List.mem_cons_of_mem _ (subtreesList_trans children s c h hc)
termination_by structural t => t

theorem subtreesList_trans : ∀ (l : List LiveNode) (s c : LiveNode),
    s ∈ subtreesList l → c ∈ s.children → c ∈ subtreesList l
  | [], s, c => by
    intro hs _
    rw [subtreesList] at hs
    simp at hs
  | d :: l, s, c => by
    intro hs hc
    rw [subtreesList] at hs ⊢
    rcases List.mem_append.mp hs with h | h
    · exact List.mem_append.mpr (Or.inl (subtrees_trans d s c h hc))
    · exact List.mem_append.mpr (Or.inr (subtreesList_trans l s c h hc))
termination_by structural l => l
end

mutual
theorem exportTree_eq : ∀ t : LiveNode,
    exportTree t = (subtreesL t).map (fun n => (n.ref, nodeRecordOf n))
  | .mk r ty cs inh children => by
    rw [exportTree, subtreesL, List.map_cons, exportList_eq children]
    rfl
termination_by structural t => t

theorem exportList_eq : ∀ l : List LiveNode,
    exportList l = (subtreesList l).map (fun n => (n.ref, nodeRecordOf n))
  | [] => by rw [exportList, subtreesList]; rfl
  | c :: l => by
    rw [exportList, subtreesList, List.map_append, exportTree_eq c, exportList_eq l]
termination_by structural l => l
end

theorem assocLookup_subtrees (l : List LiveNode) (s : LiveNode) (hs : s ∈ l)
    (hinj : ∀ a ∈ l, ∀ b ∈ l, a.ref = b.ref → a = b) :
    assocLookup s.ref (l.map (fun n => (n.ref, nodeRecordOf n))) =
      some (nodeRecordOf s) := by
  induction l with
  | nil => simp at hs
  | cons a l ih =>
    by_cases ha : a.ref = s.ref
    · have : a = s := hinj a (List.mem_cons_self a l) s hs ha
      subst this
      simp [assocLookup]
    · rw [List.map_cons]
      rw [assocLookup, if_neg ha]
      have hsl : s ∈ l := by
        rcases List.mem_cons.mp hs with h | h
        · exact absurd (show a.ref = s.ref by rw [h]) ha
        · exact h
      exact ih hsl
        (fun x hx y hy => hinj x (List.mem_cons_of_mem a hx) y (List.mem_cons_of_mem a hy))

theorem decodeStrs_map (l : List String) : decodeStrs (l.map Value.str) = some l := by
  induction l with
  | nil => rfl
  | cons s l ih => simp [decodeStrs, ih]

theorem optMapM_map {α β : Type _} (f : α → β) (g : β → Option α) (l : List α)
    (h : ∀ c ∈ l, g (f c) = some c) : optMapM g (l.map f) = some l := by
  induction l with
  | nil => rfl
  | cons c l ih =>
    rw [List.map_cons, optMapM, h c (List.mem_cons_self c l),
      ih (fun x hx => h x (List.mem_cons_of_mem c hx))]

theorem materialize_subtree (T : LiveNode)
    (hwf : ∀ a ∈ subtreesL T, ∀ b ∈ subtreesL T, a.ref = b.ref → a = b) :
    ∀ fuel s, s ∈ subtreesL T → heightL s ≤ fuel →
      materializeNode (exportTree T) fuel s.ref = some s := by
  intro fuel
  induction fuel with
  | zero =>
    intro s _ hh
    have := heightL_pos s
    omega
  | succ fuel ih =>
    intro s hs hh
    obtain ⟨r, ty, cls, inh, children⟩ := s
    have hlook : assocLookup (LiveNode.mk r ty cls inh children).ref (exportTree T) =
        some (nodeRecordOf (LiveNode.mk r ty cls inh children)) := by
      rw [exportTree_eq]
      exact assocLookup_subtrees _ _ hs hwf
    have hchild : ∀ c ∈ children, materializeNode (exportTree T) fuel c.ref = some c := by
      intro c hc
      refine ih c (subtrees_trans T _ c hs hc) ?_
      have h1 : heightL c ≤ heightList children := heightList_ge children c hc
      have h2 : heightL (LiveNode.mk r ty cls inh children) = 1 + heightList children := by
        rw [heightL]
      omega
    have hmapped : optMapM (fun k => materializeNode (exportTree T) fuel k)
        (children.map LiveNode.ref) = some children :=
      optMapM_map LiveNode.ref _ children hchild
    rw [LiveNode.ref] at hlook
    rw [materializeNode]
    simp only [LiveNode.ref]
    rw [hlook]
    simp [nodeRecordOf, assocLookup, childKeys, decodeStrSeq, decodeStrs_map,
      LiveNode.ref, LiveNode.typeName, LiveNode.classStr, LiveNode.inherited,
      LiveNode.children, childEntry, List.map_map, Function.comp, hmapped]
    have hcomp : Prod.fst ∘ childEntry = LiveNode.ref := funext (fun c => rfl)
    rw [hcomp, hmapped]

/-- C2: exporting any live tree whose identifiers satisfy the identity
invariant (one identifier, one object) and materializing the resulting
skeleton from the tree's root identifier yields a tree structurally equal
to the original — same identifiers, same child attachment points, same
resolved type lists. -/
theorem roundtrip_export_materialize (T : LiveNode)
    (hwf : ∀ a ∈ subtreesL T, ∀ b ∈ subtreesL T, a.ref = b.ref → a = b) :
    materializeNode (exportTree T) (heightL T) T.ref = some T :=
  materialize_subtree T hwf (heightL T) T (self_mem_subtreesL T) le_rfl

/-- Witness for C2: the round trip applied to the example notebook's
tokamak tree, whose shared divertor is attached at two points. -/
theorem roundtrip_export_materialize_witness :
    (∀ a ∈ subtreesL tokamakTree, ∀ b ∈ subtreesL tokamakTree, a.ref = b.ref → a = b)
    ∧ materializeNode (exportTree tokamakTree) (heightL tokamakTree) tokamakTree.ref =
        some tokamakTree :=
  ⟨by decide, roundtrip_export_materialize tokamakTree (by decide)⟩

end BomAnalysis
